import Mathlib

/-!
Verification of the heekkr-resolver-json-py federation layer.

The development shallowly embeds `src/app/__init__.py` (the aggregation
engine: `Resolver.GetLibraries`, `Resolver.Search`, `convert_library`) and
the relevant parts of `src/app/services/seoul_seocho.py`
(`SeoulSeochoService.search`'s scoping-id handling and `_parse_state`).
Protobuf message types (`heekkr.*_pb2`) are embedded as plain structures;
the protobuf `oneof` of `HoldingStatus` is embedded as three optional
fields so that the exactly-one-variant invariant is a genuine property of
the producing code rather than of the type.  The service registry lives in
`app/core`, which is not part of the sources; following the spec (§3, §4.1)
it is an insertion-ordered, read-only map from a namespace string to an
adapter, embedded as a list of pairs.
-/

/-! ## Wire and internal data model -/

/-- Wire coordinate (`heekkr.common_pb2.LatLng`). -/
structure LatLng where
  latitude : Float
  longitude : Float

/-- Modelled from the spec: the internal coordinate carried by `app.core`'s
`Library` (§3: `coordinate: optional {latitude: float64, longitude: float64}`);
`app/core` itself is not among the sources. -/
structure Coordinate where
  latitude : Float
  longitude : Float

/-- Modelled from the spec: the internal `Library` of `app.core`
(§3: `{id, name, coordinate?}`), the shape consumed by `convert_library`. -/
structure ServiceLibrary where
  id : String
  name : String
  coordinate : Option Coordinate

/-- Wire `Library` (`heekkr.library_pb2.Library`) as populated by
`convert_library`. -/
structure Library where
  id : String
  name : String
  resolver_id : String
  coordinate : Option LatLng

/-- Wire `GetLibrariesResponse`. -/
structure GetLibrariesResponse where
  libraries : List Library

/-- Wire `Book` (the fields `SeoulSeochoService.search` populates). -/
structure Book where
  isbn : String
  title : String
  author : String
  publisher : String
deriving DecidableEq

/-- Wire `Date` (`heekkr.common_pb2.Date`). -/
structure Date where
  year : Int
  month : Int
  day : Int
deriving DecidableEq

/-- Wire `DateTime` (`heekkr.common_pb2.DateTime`); only the `date` part is
ever populated by `_parse_due`. -/
structure DateTime where
  date : Date
deriving DecidableEq

/-- Wire `AvailableStatus`. -/
structure AvailableStatus where
  detail : String
deriving DecidableEq

/-- Wire `OnLoanStatus`. -/
structure OnLoanStatus where
  detail : String
  due : Option DateTime
deriving DecidableEq

/-- Wire `UnavailableStatus`. -/
structure UnavailableStatus where
  detail : String
deriving DecidableEq

/-- Wire `HoldingStatus`.  The protobuf `oneof {available, on_loan,
unavailable}` is embedded as three optional fields, so that "exactly one
variant populated" is a property to be proved of the code that builds
values, not a consequence of the embedding. -/
structure HoldingStatus where
  available : Option AvailableStatus
  on_loan : Option OnLoanStatus
  unavailable : Option UnavailableStatus
  is_requested : Bool
  requests : Int
  requests_available : Bool
deriving DecidableEq

/-- Exactly one of the three variant fields of a `HoldingStatus` is
populated. -/
def HoldingStatus.exactlyOne (st : HoldingStatus) : Bool :=
  (st.available.isSome && !st.on_loan.isSome && !st.unavailable.isSome) ||
  (!st.available.isSome && st.on_loan.isSome && !st.unavailable.isSome) ||
  (!st.available.isSome && !st.on_loan.isSome && st.unavailable.isSome)

/-- Wire `HoldingSummary`. -/
structure HoldingSummary where
  library_id : String
  location : String
  call_number : String
  status : HoldingStatus
deriving DecidableEq

/-- Wire `SearchEntity`. -/
structure SearchEntity where
  book : Book
  holding_summaries : List HoldingSummary
deriving DecidableEq

/-- Wire `SearchResponse`: one streamed message of `Resolver.Search`. -/
structure SearchResponse where
  entities : List SearchEntity
deriving DecidableEq

/-! ## Identifier scheme (from `Resolver.Search` and the seoul-seocho adapter) -/

/-- `library_id.split(":")[0]` from `Resolver.Search` (line 41): the
characters strictly before the first `:`; the whole string when no `:`
occurs (Python `split` never fails). -/
def namespaceOf (id : String) : String :=
  ⟨id.data.takeWhile (fun c => c != ':')⟩

/-- Modelled from the spec: §4.2's `namespaceOf`, which instead fails
(`none`, standing for `MalformedIdentifier`) when the identifier has no
separator.  Kept only to compare with the source's `namespaceOf`. -/
def namespaceOfSpec (id : String) : Option String :=
  if ':' ∈ id.data then some ⟨id.data.takeWhile (fun c => c != ':')⟩ else none

/-- `"{}:{}".format(PREFIX, local)` from `SeoulSeochoService.get_libraries`
(line 35), and §4.2's `compose`. -/
def compose (ns localId : String) : String :=
  ns ++ ":" ++ localId

/-- Python `str.startswith(p)`, as used in `Resolver.Search` (line 50):
a literal-prefix test, embedded on the character lists. -/
def startsWith (p s : String) : Bool :=
  p.data.isPrefixOf s.data

/-- Python `str.removeprefix(p)`, as used in `SeoulSeochoService.search`
(line 48): drop a literal leading `p` when present, otherwise return the
string unchanged. -/
def removePrefixStr (s p : String) : String :=
  if p.data.isPrefixOf s.data then ⟨s.data.drop p.data.length⟩ else s

/-! ## Registry and aggregation engine (`Resolver`) -/

/-- A backend adapter as the engine sees it (§6 capability contract):
a listing result and, for each `(term, scoping ids)` pair, the finite
stream of entities its search produces when it completes successfully.
Failures of listing are an `Except.error` carrying the adapter's error. -/
structure Service where
  get_libraries : Except String (List ServiceLibrary)
  search : String → List String → List SearchEntity

/-- Modelled from the spec: the `app.core` registry `services` (§4.1), an
insertion-ordered read-only mapping namespace → adapter; `services.items()`
iterates it in that order. -/
abbrev Registry := List (String × Service)

/-- `convert_library` from `src/app/__init__.py` (lines 61-71). -/
def convert_library (lib : ServiceLibrary) : Library :=
  { id := lib.id
    name := lib.name
    resolver_id := "json-py"
    coordinate :=
      match lib.coordinate with
      | some c => some ⟨c.latitude, c.longitude⟩
      | none => none }

/-- `asyncio.gather(*(service.get_libraries() for _, service in
services.items()))` from `Resolver.GetLibraries`: all listing results in
registry order, or the error of a failing adapter (`gather` re-raises a
failing awaitable's exception and discards every other result). -/
def gatherLibs : Registry → Except String (List (List ServiceLibrary))
  | [] => .ok []
  | p :: rest =>
    match p.2.get_libraries with
    | .error e => .error e
    | .ok ls =>
      match gatherLibs rest with
      | .error e => .error e
      | .ok rest' => .ok (ls :: rest')

/-- `Resolver.GetLibraries` (lines 23-35): gather every adapter's listing,
flatten in registry-then-emission order, convert each library. -/
def GetLibraries (registry : Registry) : Except String GetLibrariesResponse :=
  match gatherLibs registry with
  | .error e => .error e
  | .ok lss => .ok ⟨lss.flatten.map convert_library⟩

/-- `service_ids = set(library_id.split(":")[0] for library_id in
library_ids)` from `Resolver.Search` (line 41), as the list of namespaces
(set membership is list membership). -/
def service_ids (libraryIds : List String) : List String :=
  libraryIds.map namespaceOf

/-- The generator filter `for name, service in services.items() if name in
service_ids` from `Resolver.Search` (lines 54-55). -/
def selectedServices (registry : Registry) (libraryIds : List String) : Registry :=
  registry.filter (fun p => (service_ids libraryIds).contains p.1)

/-- The scoping-id set `{library_id for library_id in library_ids if
library_id.startswith(f"{name}:")}` passed to a selected adapter
(`Resolver.Search`, lines 47-51). -/
def localSubset (name : String) (libraryIds : List String) : List String :=
  libraryIds.filter (fun lid => startsWith (name ++ ":") lid)

/-- The full argument lists `(name, term, scoping ids)` of the adapter
search invocations `Resolver.Search` makes, in registry order. -/
def searchInvocations (registry : Registry) (term : String)
    (libraryIds : List String) : List (String × String × List String) :=
  (selectedServices registry libraryIds).map
    (fun p => (p.1, term, localSubset p.1 libraryIds))

/-- The entity streams handed to `stream.merge` in `Resolver.Search`:
one per selected adapter, each the output of that adapter's search on its
scoping subset. -/
def searchStreams (registry : Registry) (term : String)
    (libraryIds : List String) : List (List SearchEntity) :=
  (selectedServices registry libraryIds).map
    (fun p => p.2.search term (localSubset p.1 libraryIds))

/-- `out` is one possible output of merging the streams `ls`
first-ready-first-out (`aiostream.stream.merge`): at each step some stream
with an item ready contributes its next item; the merge ends when every
stream is exhausted. -/
inductive MergeOf : List (List SearchEntity) → List SearchEntity → Prop where
  | done (ls : List (List SearchEntity)) (h : ∀ l ∈ ls, l = []) : MergeOf ls []
  | step (ls : List (List SearchEntity)) (i : Nat) (a : SearchEntity)
      (rest : List SearchEntity) (out : List SearchEntity)
      (hget : ls[i]? = some (a :: rest))
      (hrec : MergeOf (ls.set i rest) out) : MergeOf ls (a :: out)

/-- `yield SearchResponse(entities=[entity])` from `Resolver.Search`
(line 58): each merged entity is wrapped alone in its own response. -/
def searchResponses (entities : List SearchEntity) : List SearchResponse :=
  entities.map (fun e => ⟨[e]⟩)

/-- `out` is one possible response sequence of `Resolver.Search` on
`(term, libraryIds)` against `registry`, for some interleaving of the
selected adapters' streams. -/
def SearchRun (registry : Registry) (term : String) (libraryIds : List String)
    (out : List SearchResponse) : Prop :=
  ∃ merged, MergeOf (searchStreams registry term libraryIds) merged ∧
    out = searchResponses merged

/-! ## seoul-seocho adapter (from `src/app/services/seoul_seocho.py`) -/

/-- `[lid.removeprefix("seoul-seocho:") for lid in library_ids]` from
`SeoulSeochoService.search` (lines 47-49): the `manageCode` list of the
backend request body. -/
def seoulSeochoManageCodes (library_ids : List String) : List String :=
  library_ids.map (fun lid => removePrefixStr lid "seoul-seocho:")

/-- The fields of one backend JSON book record read by `_parse_state` and
`_parse_due`. -/
structure BookRecord where
  loanStatus : String
  workingStatus : String
  returnPlanDate : String
  reservationCount : Int
  isActiveResvYn : String

/-- `_parse_due` (lines 105-113): split on `.`, parse each part as an
integer, read parts 0-2 as year/month/day.  Python raises (hence `none`)
when a part is not an integer or fewer than three parts exist. -/
def parse_due (due : String) : Option DateTime := do
  let parts ← (due.splitOn ".").mapM String.toInt?
  match parts with
  | y :: m :: d :: _ => some ⟨⟨y, m, d⟩⟩
  | _ => none

/-- `_parse_state` (lines 73-103).  `common` is the three shared fields;
`대출가능` selects the available variant; `대출불가…` with a working status
of `대출중` or `상호대차중` selects on-loan (raising, hence `none`, when the
due date fails to parse); everything else falls through to unavailable. -/
def parse_state (book : BookRecord) : Option HoldingStatus :=
  let is_req : Bool := book.reservationCount > 0
  let req_av : Bool := book.isActiveResvYn == "Y"
  if book.loanStatus == "대출가능" then
    some { available := some ⟨book.workingStatus⟩, on_loan := none,
           unavailable := none, is_requested := is_req,
           requests := book.reservationCount, requests_available := req_av }
  else if startsWith "대출불가" book.loanStatus then
    if book.workingStatus == "대출중" || book.workingStatus == "상호대차중" then
      (parse_due book.returnPlanDate).map
        (fun due =>
          { available := none, on_loan := some ⟨book.workingStatus, some due⟩,
            unavailable := none, is_requested := is_req,
            requests := book.reservationCount, requests_available := req_av })
    else
      some { available := none, on_loan := none,
             unavailable := some ⟨book.workingStatus⟩, is_requested := is_req,
             requests := book.reservationCount, requests_available := req_av }
  else
    some { available := none, on_loan := none,
           unavailable := some ⟨book.workingStatus⟩, is_requested := is_req,
           requests := book.reservationCount, requests_available := req_av }

/-! ## Concrete example data (used by witnesses and counterexamples) -/

/-- A concrete search entity produced by the example adapter `a`. -/
def entA : SearchEntity :=
  ⟨⟨"isbn-a", "Title A", "Author A", "Publisher A"⟩, []⟩

/-- A concrete search entity produced by the example adapter `b`. -/
def entB : SearchEntity :=
  ⟨⟨"isbn-b", "Title B", "Author B", "Publisher B"⟩, []⟩

/-- Example adapter `a`: two libraries, one search hit. -/
def svcA : Service :=
  ⟨.ok [⟨"a:1", "Library One", none⟩, ⟨"a:2", "Library Two", none⟩],
   fun _ _ => [entA]⟩

/-- Example adapter `b`: one library, one search hit. -/
def svcB : Service :=
  ⟨.ok [⟨"b:1", "Library Three", none⟩], fun _ _ => [entB]⟩

/-- Example adapter `c`: nothing at all. -/
def svcC : Service :=
  ⟨.ok [], fun _ _ => []⟩

/-- Example adapter whose listing call fails. -/
def svcFail : Service :=
  ⟨.error "backend down", fun _ _ => []⟩

/-- Example registry with three adapters `a`, `b`, `c`. -/
def exampleRegistry : Registry :=
  [("a", svcA), ("b", svcB), ("c", svcC)]

/-- Example registry whose second adapter fails to list. -/
def failRegistry : Registry :=
  [("a", svcA), ("f", svcFail)]

/-- The listing result each adapter of `exampleRegistry` returns. -/
def exampleLibs : String × Service → List ServiceLibrary :=
  fun p =>
    if p.1 == "a" then [⟨"a:1", "Library One", none⟩, ⟨"a:2", "Library Two", none⟩]
    else if p.1 == "b" then [⟨"b:1", "Library Three", none⟩]
    else []

/-! ## Helper lemmas -/

theorem takeWhile_all {α : Type} (p : α → Bool) (l : List α)
    (h : ∀ a ∈ l, p a = true) : l.takeWhile p = l := by
  induction l with
  | nil => rfl
  | cons a l ih =>
    rw [List.takeWhile_cons_of_pos (h a (List.mem_cons_self a l)),
      ih (fun b hb => h b (List.mem_cons_of_mem _ hb))]

theorem takeWhile_append_stop {α : Type} (p : α → Bool) (l : List α)
    (h : ∀ a ∈ l, p a = true) (c : α) (hc : p c = false) (r : List α) :
    (l ++ c :: r).takeWhile p = l := by
  induction l with
  | nil => simp [List.takeWhile_cons, hc]
  | cons a l ih =>
    rw [List.cons_append,
      List.takeWhile_cons_of_pos (h a (List.mem_cons_self a l)),
      ih (fun b hb => h b (List.mem_cons_of_mem _ hb))]

theorem namespaceOf_compose_aux (ns localId : String)
    (h : ∀ c ∈ ns.data, (c != ':') = true) :
    namespaceOf (compose ns localId) = ns := by
  show String.mk ((ns ++ ":" ++ localId).data.takeWhile _) = ns
  rw [String.data_append (ns ++ ":") localId, String.data_append ns ":",
    List.append_assoc]
  rw [show (":" : String).data ++ localId.data = ':' :: localId.data from rfl]
  rw [takeWhile_append_stop _ ns.data h ':' (by decide) localId.data]

/-! ## Claims -/

/-- C6: for every namespace `ns` with no `:` inside and every local id,
applying `namespaceOf` to `compose ns localId` gives back exactly `ns`. -/
theorem namespaceOf_compose (ns localId : String)
    (h : ∀ c ∈ ns.data, (c != ':') = true) :
    namespaceOf (compose ns localId) = ns :=
  namespaceOf_compose_aux ns localId h

/-- Witness for C6 at `ns = "a"`, `localId = "1"`. -/
theorem namespaceOf_compose_witness : namespaceOf (compose "a" "1") = "a" :=
  namespaceOf_compose "a" "1" (by decide)

/-- C2 counterexample: on an identifier with no separator the source's
`namespaceOf` returns the whole identifier; it does not fail, while the
spec-modelled `namespaceOfSpec` demands a `MalformedIdentifier` failure
(`none`) there. -/
theorem namespaceOf_no_separator_counterexample :
    namespaceOf "seoul-seocho" = "seoul-seocho" ∧
    namespaceOfSpec "seoul-seocho" = none := by
  constructor
  · decide
  · decide

/-- C2 (amended): `namespaceOf` is total: it returns the substring strictly
before the first `:` when a separator is present, and the entire identifier
(never an error) when none is. -/
theorem namespaceOf_total (id : String) :
    ((∀ c ∈ id.data, (c != ':') = true) → namespaceOf id = id) ∧
    (∀ a b : String, (∀ c ∈ a.data, (c != ':') = true) →
      id = compose a b → namespaceOf id = a) := by
  constructor
  · intro h
    show String.mk (id.data.takeWhile _) = id
    rw [takeWhile_all _ id.data h]
  · intro a b ha hid
    subst hid
    exact namespaceOf_compose_aux a b ha

/-- Witness for C2's amended theorem at `"z"` and `"x:y"`. -/
theorem namespaceOf_total_witness :
    namespaceOf "z" = "z" ∧ namespaceOf "x:y" = "x" :=
  ⟨(namespaceOf_total "z").1 (by decide),
   (namespaceOf_total "x:y").2 "x" "y" (by decide) rfl⟩

/-- C8: `convert_library` copies `id` and `name`, tags every record with the
fixed resolver identity `"json-py"`, and maps the coordinate across exactly
when present (an absent coordinate stays absent, never zeroed). -/
theorem convert_library_spec (lib : ServiceLibrary) :
    (convert_library lib).id = lib.id ∧
    (convert_library lib).name = lib.name ∧
    (convert_library lib).resolver_id = "json-py" ∧
    (convert_library lib).coordinate =
      lib.coordinate.map (fun c => ⟨c.latitude, c.longitude⟩) := by
  refine ⟨rfl, rfl, rfl, ?_⟩
  cases h : lib.coordinate <;> simp [convert_library, h]

theorem gatherLibs_error (registry : Registry)
    (h : ∃ p ∈ registry, ∃ e, p.2.get_libraries = .error e) :
    ∃ e, gatherLibs registry = .error e ∧
      ∃ p ∈ registry, p.2.get_libraries = .error e := by
  induction registry with
  | nil => simp at h
  | cons q rest ih =>
    cases hq : q.2.get_libraries with
    | error e =>
      exact ⟨e, by simp [gatherLibs, hq], q, List.mem_cons_self q rest, hq⟩
    | ok ls =>
      have h' : ∃ p ∈ rest, ∃ e, p.2.get_libraries = .error e := by
        rcases h with ⟨p, hp, e, he⟩
        rcases List.mem_cons.mp hp with rfl | hp'
        · rw [hq] at he; cases he
        · exact ⟨p, hp', e, he⟩
      rcases ih h' with ⟨e, hge, p, hp, he⟩
      exact ⟨e, by simp [gatherLibs, hq, hge], p, List.mem_cons_of_mem _ hp, he⟩

theorem gatherLibs_ok (registry : Registry)
    (f : String × Service → List ServiceLibrary)
    (h : ∀ p ∈ registry, p.2.get_libraries = .ok (f p)) :
    gatherLibs registry = .ok (registry.map f) := by
  induction registry with
  | nil => rfl
  | cons q rest ih =>
    have hq := h q (List.mem_cons_self q rest)
    have hrest := ih (fun p hp => h p (List.mem_cons_of_mem _ hp))
    simp [gatherLibs, hq, hrest]

/-- C4: whenever some registered adapter's listing call fails,
`GetLibraries` fails as a whole — it returns an error that is a failing
adapter's own error, and no partial response. -/
theorem GetLibraries_failfast (registry : Registry)
    (h : ∃ p ∈ registry, ∃ e, p.2.get_libraries = .error e) :
    (GetLibraries registry).isOk = false ∧
    ∃ e, GetLibraries registry = .error e ∧
      ∃ p ∈ registry, p.2.get_libraries = .error e := by
  rcases gatherLibs_error registry h with ⟨e, hge, p, hp, he⟩
  refine ⟨?_, e, ?_, p, hp, he⟩ <;> simp [GetLibraries, hge, Except.isOk, Except.toBool]

/-- Witness for C4 on `failRegistry`, whose adapter `f` fails. -/
theorem GetLibraries_failfast_witness :
    (GetLibraries failRegistry).isOk = false :=
  (GetLibraries_failfast failRegistry
    ⟨("f", svcFail), by simp [failRegistry], "backend down", rfl⟩).1

/-- C5: when every adapter's listing succeeds, `GetLibraries` returns
exactly the concatenation of the adapters' results in registry iteration
order (each adapter's block in its own emission order), converted; its
cardinality is the sum of the per-adapter cardinalities. -/
theorem GetLibraries_concat (registry : Registry)
    (f : String × Service → List ServiceLibrary)
    (h : ∀ p ∈ registry, p.2.get_libraries = .ok (f p)) :
    GetLibraries registry = .ok ⟨((registry.map f).flatten).map convert_library⟩ ∧
    (((registry.map f).flatten).map convert_library).length =
      (registry.map (fun p => (f p).length)).sum := by
  constructor
  · simp [GetLibraries, gatherLibs_ok registry f h]
  · rw [List.length_map, List.length_flatten, List.map_map]
    rfl

/-- Witness for C5 on `exampleRegistry`. -/
theorem GetLibraries_concat_witness :
    GetLibraries exampleRegistry =
      .ok ⟨((exampleRegistry.map exampleLibs).flatten).map convert_library⟩ :=
  (GetLibraries_concat exampleRegistry exampleLibs (by
    intro p hp
    simp [exampleRegistry] at hp
    rcases hp with rfl | rfl | rfl <;> rfl)).1

theorem mergeOf_nil (out : List SearchEntity) (h : MergeOf [] out) : out = [] := by
  cases h with
  | done => rfl
  | step ls i a rest out hget => simp at hget

/-- C3: the adapters `Resolver.Search` invokes are exactly the registered
ones whose namespace is `namespaceOf` of some supplied id; with no supplied
ids no adapter is selected and every possible run of the search produces no
output at all. -/
theorem Search_selects_exactly (registry : Registry) (term : String)
    (ids : List String) :
    (∀ p, p ∈ selectedServices registry ids ↔
        p ∈ registry ∧ ∃ lid ∈ ids, namespaceOf lid = p.1) ∧
    selectedServices registry [] = [] ∧
    (∀ out, SearchRun registry term [] out → out = []) := by
  refine ⟨?_, ?_, ?_⟩
  · intro p
    simp only [selectedServices, List.mem_filter, service_ids]
    constructor
    · rintro ⟨hp, hc⟩
      refine ⟨hp, ?_⟩
      have : p.1 ∈ ids.map namespaceOf := by simpa using hc
      rcases List.mem_map.mp this with ⟨lid, hlid, he⟩
      exact ⟨lid, hlid, he⟩
    · rintro ⟨hp, lid, hlid, he⟩
      refine ⟨hp, ?_⟩
      simpa using List.mem_map.mpr ⟨lid, hlid, he⟩
  · simp [selectedServices, service_ids]
  · rintro out ⟨merged, hm, hout⟩
    have hs : searchStreams registry term [] = [] := by
      simp [searchStreams, selectedServices, service_ids]
    rw [hs] at hm
    rw [hout, mergeOf_nil merged hm]
    rfl

/-- Witness for C3: in `exampleRegistry`, scoping id `"a:1"` selects
adapter `a`, and the empty scoping set admits only the empty run. -/
theorem Search_selects_exactly_witness :
    (("a", svcA) ∈ selectedServices exampleRegistry ["a:1"]) ∧
    selectedServices exampleRegistry [] = [] := by
  have h := Search_selects_exactly exampleRegistry "t" ["a:1"]
  have h0 := Search_selects_exactly exampleRegistry "t" []
  exact ⟨(h.1 ("a", svcA)).mpr ⟨by simp [exampleRegistry], "a:1", by simp, rfl⟩,
    h0.2.1⟩

theorem removePrefixStr_compose (ns localId : String) :
    removePrefixStr (compose ns localId) (ns ++ ":") = localId := by
  have hdata : (compose ns localId).data = (ns ++ ":").data ++ localId.data :=
    String.data_append (ns ++ ":") localId
  have hpre : ((ns ++ ":").data.isPrefixOf ((ns ++ ":").data ++ localId.data)) = true := by
    rw [List.isPrefixOf_iff_prefix]
    exact List.prefix_append _ _
  simp only [removePrefixStr, hdata, hpre, if_true]
  rw [List.drop_left]

/-- C1 counterexample: `Search("foo", {"a:1","b:9"})` against a registry
with adapters `a`, `b`, `c` invokes `a` with `{"a:1"}` and `b` with
`{"b:9"}` — the full namespaced ids, which are not the stripped local ids
`{"1"}` and `{"9"}` the claim requires. -/
theorem search_passes_full_ids_counterexample :
    searchInvocations exampleRegistry "foo" ["a:1", "b:9"] =
      [("a", "foo", ["a:1"]), ("b", "foo", ["b:9"])] ∧
    (["a:1"] : List String) ≠ ["1"] := by
  constructor
  · rfl
  · decide

/-- C1 (amended): for each selected adapter the engine passes the matching
ids with the `namespace:` prefix still attached (every id handed to an
adapter starts with that adapter's own prefix); stripping to local ids is
done inside the adapter, as seoul-seocho's search does with `removeprefix`
when building its backend request. -/
theorem search_passes_full_ids (registry : Registry) (term : String)
    (ids : List String) :
    (∀ inv ∈ searchInvocations registry term ids,
      ∀ lid ∈ inv.2.2, startsWith (inv.1 ++ ":") lid = true) ∧
    (∀ localId : String,
      seoulSeochoManageCodes [compose "seoul-seocho" localId] = [localId]) ∧
    searchInvocations exampleRegistry "foo" ["a:1", "b:9"] =
      [("a", "foo", ["a:1"]), ("b", "foo", ["b:9"])] := by
  refine ⟨?_, ?_, rfl⟩
  · intro inv hinv lid hlid
    rcases List.mem_map.mp hinv with ⟨p, hp, rfl⟩
    exact (List.mem_filter.mp hlid).2
  · intro localId
    show [removePrefixStr (compose "seoul-seocho" localId) "seoul-seocho:"] = _
    rw [show ("seoul-seocho:" : String) = "seoul-seocho" ++ ":" from rfl,
      removePrefixStr_compose]

/-- Witness for C1's amended theorem: the id `"a:1"` handed to adapter `a`
carries the prefix `"a:"`, and the seoul-seocho adapter recovers `"1"` from
`"seoul-seocho:1"`. -/
theorem search_passes_full_ids_witness :
    startsWith ("a" ++ ":") "a:1" = true ∧
    seoulSeochoManageCodes [compose "seoul-seocho" "1"] = ["1"] := by
  have h := search_passes_full_ids exampleRegistry "foo" ["a:1", "b:9"]
  refine ⟨?_, h.2.1 "1"⟩
  have hmem : ("a", "foo", ["a:1"]) ∈ searchInvocations exampleRegistry "foo" ["a:1", "b:9"] := by
    rw [h.2.2]
    exact List.mem_cons_self _ _
  exact h.1 ("a", "foo", ["a:1"]) hmem "a:1" (List.mem_cons_self _ _)

/-- C10: a bare id equal to a registered namespace (here `"seoul-seocho"`,
with no separator) still selects that namespace's adapter — `namespaceOf`
returns the whole string — and the adapter is invoked with an empty scoping
set, which the adapter forwards as an empty `manageCode` restriction
(search everything), rather than being rejected. -/
theorem bare_namespace_unscoped (registry : Registry) (s : Service)
    (h : ("seoul-seocho", s) ∈ registry) :
    namespaceOf "seoul-seocho" = "seoul-seocho" ∧
    (∀ term, ("seoul-seocho", term, []) ∈
      searchInvocations registry term ["seoul-seocho"]) ∧
    localSubset "seoul-seocho" ["seoul-seocho"] = [] ∧
    seoulSeochoManageCodes [] = [] := by
  refine ⟨by decide, ?_, by decide, rfl⟩
  intro term
  refine List.mem_map.mpr ⟨("seoul-seocho", s), ?_, ?_⟩
  · refine List.mem_filter.mpr ⟨h, ?_⟩
    show (service_ids ["seoul-seocho"]).contains "seoul-seocho" = true
    decide
  · show ("seoul-seocho", term, localSubset "seoul-seocho" ["seoul-seocho"]) = _
    rw [show localSubset "seoul-seocho" ["seoul-seocho"] = [] from by decide]

/-- Witness for C10 on a one-adapter registry, at term `"foo"`. -/
theorem bare_namespace_unscoped_witness :
    ("seoul-seocho", "foo", ([] : List String)) ∈
      searchInvocations [("seoul-seocho", svcC)] "foo" ["seoul-seocho"] :=
  (bare_namespace_unscoped [("seoul-seocho", svcC)] svcC
    (List.mem_cons_self _ _)).2.1 "foo"

/-- C9: every `HoldingStatus` that `_parse_state` successfully produces has
exactly one of the available / on-loan / unavailable variants populated,
whatever the input record (any loan status, working status, reservation
count, or due-date string). -/
theorem parse_state_exactlyOne (book : BookRecord) (st : HoldingStatus)
    (h : parse_state book = some st) : st.exactlyOne = true := by
  unfold parse_state at h
  split at h
  · cases h
    rfl
  · split at h
    · split at h
      · cases hdue : parse_due book.returnPlanDate with
        | none => rw [hdue] at h; cases h
        | some due =>
          rw [hdue] at h
          cases h
          rfl
      · cases h
        rfl
    · cases h
      rfl

/-- Witness for C9 on a boundary record: loan status `대출가능`, zero
reservations, no due date involved. -/
theorem parse_state_exactlyOne_witness :
    HoldingStatus.exactlyOne ⟨some ⟨"비치중"⟩, none, none, false, 0, false⟩ = true :=
  parse_state_exactlyOne ⟨"대출가능", "비치중", "", 0, "N"⟩ _ (by decide)

theorem sum_map_set (g : List SearchEntity → Nat) :
    ∀ (ls : List (List SearchEntity)) (i : Nat) (a : SearchEntity)
      (rest : List SearchEntity), ls[i]? = some (a :: rest) →
      ((ls.set i rest).map g).sum + g (a :: rest) = (ls.map g).sum + g rest := by
  intro ls
  induction ls with
  | nil => intro i a rest h; simp at h
  | cons l ls ih =>
    intro i a rest h
    cases i with
    | zero =>
      simp only [List.getElem?_cons_zero, Option.some.injEq] at h
      subst h
      simp only [List.set_cons_zero, List.map_cons, List.sum_cons]
      omega
    | succ i =>
      simp only [List.getElem?_cons_succ] at h
      have := ih i a rest h
      simp only [List.set_cons_succ, List.map_cons, List.sum_cons]
      omega

theorem mergeOf_length (ls : List (List SearchEntity))
    (out : List SearchEntity) (h : MergeOf ls out) :
    out.length = (ls.map List.length).sum := by
  induction h with
  | done ls hall =>
    symm
    apply List.sum_eq_zero
    intro x hx
    rcases List.mem_map.mp hx with ⟨l, hl, rfl⟩
    rw [hall l hl]
    rfl
  | step ls i a rest out hget hrec ih =>
    have := sum_map_set List.length ls i a rest hget
    simp only [List.length_cons] at this ⊢
    omega

theorem mergeOf_count (ls : List (List SearchEntity))
    (out : List SearchEntity) (h : MergeOf ls out) (e : SearchEntity) :
    out.count e = (ls.map (List.count e)).sum := by
  induction h with
  | done ls hall =>
    symm
    apply List.sum_eq_zero
    intro x hx
    rcases List.mem_map.mp hx with ⟨l, hl, rfl⟩
    rw [hall l hl]
    rfl
  | step ls i a rest out hget hrec ih =>
    have hsum := sum_map_set (List.count e) ls i a rest hget
    rw [List.count_cons] at hsum ⊢
    omega

/-- C7: for any run of `Resolver.Search` whose selected adapters' streams
all complete, whatever the interleaving the merge chose, the output has
exactly as many entities as the streams produced in total, each entity
occurring exactly as often as the streams produced it (none dropped, none
duplicated), and every streamed response message wraps exactly one
entity. -/
theorem Search_merge_preserves (registry : Registry) (term : String)
    (ids : List String) (merged : List SearchEntity)
    (out : List SearchResponse)
    (hmerge : MergeOf (searchStreams registry term ids) merged)
    (hout : out = searchResponses merged) :
    out.length = ((searchStreams registry term ids).map List.length).sum ∧
    (∀ e : SearchEntity,
      merged.count e = ((searchStreams registry term ids).map (List.count e)).sum) ∧
    (∀ r ∈ out, r.entities.length = 1) := by
  subst hout
  refine ⟨?_, fun e => mergeOf_count _ merged hmerge e, ?_⟩
  · rw [searchResponses, List.length_map]
    exact mergeOf_length _ merged hmerge
  · intro r hr
    rcases List.mem_map.mp hr with ⟨e, he, rfl⟩
    rfl

/-- Witness for C7: merging the two example streams `[entA]` and `[entB]`
into `[entA, entB]` yields two messages of one entity each. -/
theorem Search_merge_preserves_witness :
    (searchResponses [entA, entB]).length =
      ((searchStreams exampleRegistry "foo" ["a:1", "b:9"]).map List.length).sum ∧
    ([entA, entB].count entA) =
      ((searchStreams exampleRegistry "foo" ["a:1", "b:9"]).map (List.count entA)).sum := by
  have hmerge : MergeOf (searchStreams exampleRegistry "foo" ["a:1", "b:9"])
      [entA, entB] := by
    show MergeOf [[entA], [entB]] [entA, entB]
    exact MergeOf.step [[entA], [entB]] 0 entA [] [entB] rfl
      (MergeOf.step [[], [entB]] 1 entB [] [] rfl
        (MergeOf.done [[], []] (by simp)))
  have h := Search_merge_preserves exampleRegistry "foo" ["a:1", "b:9"]
    [entA, entB] (searchResponses [entA, entB]) hmerge rfl
  exact ⟨h.1, h.2.1 entA⟩
